import Mathlib

/-!
Verification of the Hybrid Query Resolution Engine of the `secretary`
repository (backend/app.py and backend/rag_service.py).

The Python code is shallowly embedded: dictionaries with a fixed set of
optional keys become structures with `Option` fields, Python lists become
`List`, signed decimal amounts become `Int`, `YYYY-MM-DD` date strings stay
strings (the code compares them with Python string comparison, embedded as
`strLeB`), and every external LLM call is abstracted as an input value of
type `Except` (error = the call raised or its response was unparseable, in
which case the Python `except` branch runs).
-/

namespace Secretary

/-! ### String utilities (Python `in`, `.lower()`, `<=` on strings, `.split()`) -/

/-- Python list/char-level prefix test. -/
def isPrefixOfB : List Char → List Char → Bool
  | [], _ => true
  | _ :: _, [] => false
  | a :: as, b :: bs => a == b && isPrefixOfB as bs

/-- Python `needle in hay` substring test, on character lists. -/
def isInfixOfB (needle : List Char) : List Char → Bool
  | [] => isPrefixOfB needle []
  | hay@(_ :: tl) => isPrefixOfB needle hay || isInfixOfB needle tl

/-- Python `needle in hay` substring containment for strings. -/
def substrB (needle hay : String) : Bool := isInfixOfB needle.data hay.data

/-- Python `str.lower()` (ASCII is all the source needs). -/
def strLower (s : String) : String := ⟨s.data.map Char.toLower⟩

/-- Python `a <= b` on strings: lexicographic comparison by code point. -/
def lexLe : List Char → List Char → Bool
  | [], _ => true
  | _ :: _, [] => false
  | a :: as, b :: bs => if a = b then lexLe as bs else decide (a < b)

/-- Python string `<=` applied to two strings. -/
def strLeB (a b : String) : Bool := lexLe a.data b.data

/-- Split a character list at every occurrence of the separator. -/
def splitCharsOn (sep : Char) : List Char → List Char → List (List Char)
  | [], acc => [acc.reverse]
  | c :: cs, acc =>
    if c = sep then acc.reverse :: splitCharsOn sep cs []
    else splitCharsOn sep cs (c :: acc)

/-- Python `str.split()` for space-separated text: split on spaces and drop
empty pieces. -/
def pyWords (s : String) : List String :=
  ((splitCharsOn ' ' s.data []).filter (fun w => !w.isEmpty)).map (fun w => ⟨w⟩)

/-! ### Data model

`TransactionRecord`s are the dictionaries produced by the backend:
`_id`, `description`, `amount` (signed, negative = expense),
`purchase_date` (a `YYYY-MM-DD` string) and `category`; the soft-delete
overlay merges a `deleted` flag into the dictionary
(`TRANSACTION_UPDATES`), embedded here as a `deleted` field that is
`false` unless the overlay set it. -/

structure Txn where
  id : String
  description : String
  amount : Int
  purchase_date : String
  category : String
  deleted : Bool := false
deriving Repr, DecidableEq

/-- A temporal filter dictionary: each Python key that the executor probes
(`date`, `month`, `year`, `start_date`, `end_date`) becomes an `Option`
field (`none` = key absent). -/
structure Temporal where
  date : Option String := none
  month : Option Nat := none
  year : Option Nat := none
  start_date : Option String := none
  end_date : Option String := none
deriving Repr, DecidableEq

/-- The seven intents of the classifier. -/
inductive Intent
  | find_maximum | find_minimum | calculate_total | calculate_average
  | count | find_recent | list | general
deriving Repr, DecidableEq

/-- The `filters` sub-dictionary of a classification. -/
structure Filters where
  temporal : Option Temporal := none
  merchants : List String := []
  categories : List String := []
  limit : Option Nat := none
deriving Repr, DecidableEq

/-- The part of a classification result that `execute_structured_query`
reads. -/
structure Classification where
  intent : Intent
  filters : Filters := {}
deriving Repr, DecidableEq

/-- The value stored under `result['result']` by `execute_structured_query`,
one constructor per intent-specific shape. -/
inductive QueryResult
  | txn (t : Txn)
  | totalCount (total : Nat) (count : Nat)
  | avg (average : Rat) (count : Nat) (total : Nat)
  | countOnly (count : Nat)
  | recent (transactions : List Txn) (count : Nat)
deriving Repr, DecidableEq

/-- The dictionary returned by `execute_structured_query`; optional keys
(`top_5`, `recent_transactions`) are only present for some intents. -/
structure StructuredResult where
  result : Option QueryResult
  filtered_transactions : List Txn
  expenses : List Txn
  verification : String
  intent : Intent
  top_5 : Option (List Txn) := none
  recent_transactions : Option (List Txn) := none
deriving Repr, DecidableEq

/-! ### Date parsing (`datetime.strptime(date_str, '%Y-%m-%d')`) -/

/-- Gregorian leap-year rule used by Python's `datetime`. -/
def isLeap (y : Nat) : Bool := y % 4 == 0 && (y % 100 != 0 || y % 400 == 0)

/-- Length of a month in the proleptic Gregorian calendar. -/
def daysInMonth (y m : Nat) : Nat :=
  if m == 2 then (if isLeap y then 29 else 28)
  else if m == 4 || m == 6 || m == 9 || m == 11 then 30
  else 31

/-- A calendar date, as Python's `datetime.date` triple. -/
structure Date where
  year : Nat
  month : Nat
  day : Nat
deriving Repr, DecidableEq

/-- Parse a decimal numeral; `none` if empty or a non-digit occurs. -/
def parseNatDigits (cs : List Char) : Option Nat :=
  if cs.isEmpty then none
  else cs.foldl (fun acc c =>
    match acc with
    | none => none
    | some n => if c.isDigit then some (n * 10 + (c.toNat - 48)) else none)
    (some 0)

/-- Model of `datetime.strptime(s, '%Y-%m-%d')`: three dash-separated decimal
fields, and the triple must be a valid calendar date (Python raises
`ValueError` otherwise, which `_matches_month_year` turns into `False`). -/
def parseDateYMD (s : String) : Option Date :=
  match splitCharsOn '-' s.data [] with
  | [ys, ms, ds] =>
    match parseNatDigits ys, parseNatDigits ms, parseNatDigits ds with
    | some y, some m, some d =>
      if 1 ≤ m && m ≤ 12 && 1 ≤ d && d ≤ daysInMonth y m && 1 ≤ y && y ≤ 9999
      then some ⟨y, m, d⟩ else none
    | _, _, _ => none
  | _ => none

/-- `_matches_month_year` from app.py: parse the date string and compare
month and year; parse failure yields `False`. -/
def matchesMonthYear (dateStr : String) (month year : Nat) : Bool :=
  match parseDateYMD dateStr with
  | some d => d.month == month && d.year == year
  | none => false

/-! ### `execute_structured_query` (app.py) -/

/-- The temporal-filter passes of `execute_structured_query`: key probes in
source order (`date`, then `month`+`year`, then `start_date` with an
optional truthy `end_date`). -/
def applyTemporal (tm : Option Temporal) (txns : List Txn) : List Txn :=
  match tm with
  | none => txns
  | some tmp =>
    match tmp.date with
    | some target => txns.filter (fun t => t.purchase_date == target)
    | none =>
      match tmp.month, tmp.year with
      | some m, some y => txns.filter (fun t => matchesMonthYear t.purchase_date m y)
      | _, _ =>
        match tmp.start_date with
        | some s =>
          let f1 := txns.filter (fun t => strLeB s t.purchase_date)
          match tmp.end_date with
          | some e => if e.isEmpty then f1 else f1.filter (fun t => strLeB t.purchase_date e)
          | none => f1
        | none => txns

/-- The merchant-substring pass (`any(m.lower() in description.lower())`),
skipped when the merchant list is empty. -/
def applyMerchants (ms : List String) (txns : List Txn) : List Txn :=
  if ms.isEmpty then txns
  else txns.filter (fun t => ms.any (fun m => substrB (strLower m) (strLower t.description)))

/-- The category-substring pass, skipped when the category list is empty. -/
def applyCategories (cs : List String) (txns : List Txn) : List Txn :=
  if cs.isEmpty then txns
  else txns.filter (fun t => cs.any (fun c => substrB (strLower c) (strLower t.category)))

/-- The fully filtered transaction set of `execute_structured_query`
(temporal, then merchant, then category passes over the whole input). -/
def filteredSet (f : Filters) (txns : List Txn) : List Txn :=
  applyCategories f.categories (applyMerchants f.merchants (applyTemporal f.temporal txns))

/-- The expense-sign restriction (`amount < 0`). -/
def expensesOf (l : List Txn) : List Txn := l.filter (fun t => t.amount < 0)

/-- Python `min(l, key=amount)` starting from accumulator `acc`: keeps the
first element attaining the minimum. -/
def minByAmount (acc : Txn) : List Txn → Txn
  | [] => acc
  | t :: ts => minByAmount (if t.amount < acc.amount then t else acc) ts

/-- Python `max(l, key=amount)` starting from accumulator `acc`: keeps the
first element attaining the maximum. -/
def maxByAmount (acc : Txn) : List Txn → Txn
  | [] => acc
  | t :: ts => maxByAmount (if acc.amount < t.amount then t else acc) ts

/-- Python's stable `sorted(l, key=lambda x: amount)`. -/
def sortByAmount (l : List Txn) : List Txn :=
  List.insertionSort (fun a b => a.amount ≤ b.amount) l

/-- Python's stable `sorted(l, key=purchase_date, reverse=True)`. -/
def sortByDateDesc (l : List Txn) : List Txn :=
  List.insertionSort (fun a b => strLeB b.purchase_date a.purchase_date) l

/-- Sum of `abs(amount)` over a list. -/
def sumAbs (l : List Txn) : Nat := (l.map (fun t => t.amount.natAbs)).sum

/-- `execute_structured_query(classification, all_transactions)` from
app.py: filter the whole set, restrict to expenses, fall back to the whole
filtered set for the four spending intents when no expense matched, return
early when the working set is empty, then dispatch on the intent. -/
def executeStructuredQuery (cls : Classification) (txns : List Txn) : StructuredResult :=
  let filtered := filteredSet cls.filters txns
  let expenses_only := expensesOf filtered
  let base : StructuredResult :=
    { result := none
      filtered_transactions := filtered
      expenses := expenses_only
      verification := "Checked " ++ toString filtered.length ++ " matching transactions"
      intent := cls.intent }
  let working :=
    if expenses_only.isEmpty &&
       (cls.intent ∈ [Intent.find_maximum, Intent.find_minimum,
                      Intent.calculate_total, Intent.calculate_average] : Bool)
    then filtered else expenses_only
  if working.isEmpty then
    { base with verification := "No matching transactions found" }
  else
    match cls.intent, working with
    | Intent.find_maximum, h :: t =>
      { base with
        result := some (QueryResult.txn (minByAmount h t))
        verification := "Found maximum from " ++ toString working.length ++ " expenses"
        top_5 := some ((sortByAmount working).take 5) }
    | Intent.find_minimum, h :: t =>
      { base with
        result := some (QueryResult.txn (maxByAmount h t))
        verification := "Found minimum from " ++ toString working.length ++ " expenses" }
    | Intent.calculate_total, _ =>
      { base with
        result := some (QueryResult.totalCount (sumAbs working) working.length)
        verification := "Summed " ++ toString working.length ++ " transactions" }
    | Intent.calculate_average, _ =>
      { base with
        result := some (QueryResult.avg ((sumAbs working : Rat) / (working.length : Rat))
                         working.length (sumAbs working))
        verification := "Average of " ++ toString working.length ++ " transactions" }
    | Intent.count, _ =>
      { base with
        result := some (QueryResult.countOnly filtered.length)
        verification := "Found " ++ toString filtered.length ++ " matching transactions" }
    | Intent.find_recent, _ =>
      let limit := cls.filters.limit.getD 5
      let recent := (sortByDateDesc filtered).take limit
      { base with
        result := some (QueryResult.recent recent recent.length)
        verification := "Found " ++ toString recent.length ++ " most recent transactions"
        recent_transactions := some recent }
    | _, _ => base

/-! ### Naive full-scan reference implementation (spec section 8)

The spec demands that the matched set be reproducible by "a naive
full-scan reference implementation of the same filters": one pass over
the input, keeping exactly the records that satisfy the stated temporal,
merchant-substring and category-substring predicates. -/

/-- Per-record temporal predicate of the stated filter. -/
def refTemporalOk (tm : Option Temporal) (t : Txn) : Bool :=
  match tm with
  | none => true
  | some tmp =>
    match tmp.date with
    | some target => t.purchase_date == target
    | none =>
      match tmp.month, tmp.year with
      | some m, some y => matchesMonthYear t.purchase_date m y
      | _, _ =>
        match tmp.start_date with
        | some s => strLeB s t.purchase_date &&
            (match tmp.end_date with
             | some e => if e.isEmpty then true else strLeB t.purchase_date e
             | none => true)
        | none => true

/-- Per-record merchant-substring predicate of the stated filter. -/
def refMerchantOk (ms : List String) (t : Txn) : Bool :=
  ms.isEmpty || ms.any (fun m => substrB (strLower m) (strLower t.description))

/-- Per-record category-substring predicate of the stated filter. -/
def refCategoryOk (cs : List String) (t : Txn) : Bool :=
  cs.isEmpty || cs.any (fun c => substrB (strLower c) (strLower t.category))

/-- A record satisfies all three stated filters. -/
def referenceMatches (f : Filters) (t : Txn) : Bool :=
  refTemporalOk f.temporal t && refMerchantOk f.merchants t && refCategoryOk f.categories t

/-- The naive single-scan reference: keep exactly the satisfying records. -/
def referenceFilteredSet (f : Filters) (txns : List Txn) : List Txn :=
  txns.filter (referenceMatches f)

/-! ### Filter composition lemmas -/

theorem filter_filter_and {α : Type} (p q : α → Bool) (l : List α) :
    (l.filter p).filter q = l.filter (fun t => p t && q t) := by
  induction l with
  | nil => rfl
  | cons h t ih =>
    by_cases hp : p h <;> by_cases hq : q h <;>
      simp [List.filter_cons, hp, hq, ih]

theorem filter_ext {α : Type} (p q : α → Bool) (l : List α) (h : ∀ t, p t = q t) :
    l.filter p = l.filter q := by
  induction l with
  | nil => rfl
  | cons a as ih => simp [List.filter_cons, h a, ih]

theorem filter_eq_self {α : Type} (p : α → Bool) (l : List α) (h : ∀ t, p t = true) :
    l.filter p = l := by
  induction l with
  | nil => rfl
  | cons a as ih => simp [List.filter_cons, h a, ih]

theorem applyTemporal_eq (tm : Option Temporal) (txns : List Txn) :
    applyTemporal tm txns = txns.filter (refTemporalOk tm) := by
  cases tm with
  | none => exact (filter_eq_self _ txns (fun t => by simp [refTemporalOk])).symm
  | some tmp =>
    rcases hd : tmp.date with _ | target
    case some =>
      simp only [applyTemporal, hd]
      exact filter_ext _ _ txns (fun t => by simp [refTemporalOk, hd])
    case none =>
    rcases hm : tmp.month with _ | m <;> rcases hy : tmp.year with _ | y
    case some.some =>
      simp only [applyTemporal, hd, hm, hy]
      exact filter_ext _ _ txns (fun t => by simp [refTemporalOk, hd, hm, hy])
    all_goals (
      rcases hs : tmp.start_date with _ | s
      case none =>
        simp only [applyTemporal, hd, hm, hy, hs]
        exact (filter_eq_self _ txns (fun t => by simp [refTemporalOk, hd, hm, hy, hs])).symm
      case some =>
        rcases he : tmp.end_date with _ | e
        case none =>
          simp only [applyTemporal, hd, hm, hy, hs, he]
          exact filter_ext _ _ txns (fun t => by simp [refTemporalOk, hd, hm, hy, hs, he])
        case some =>
          by_cases hee : e.isEmpty
          · simp only [applyTemporal, hd, hm, hy, hs, he, if_pos hee]
            exact filter_ext _ _ txns
              (fun t => by simp [refTemporalOk, hd, hm, hy, hs, he, hee])
          · simp only [applyTemporal, hd, hm, hy, hs, he, if_neg hee]
            rw [filter_filter_and]
            exact filter_ext _ _ txns
              (fun t => by simp [refTemporalOk, hd, hm, hy, hs, he, hee]))

theorem applyMerchants_eq (ms : List String) (txns : List Txn) :
    applyMerchants ms txns = txns.filter (refMerchantOk ms) := by
  by_cases h : ms.isEmpty
  · rw [applyMerchants, if_pos h]
    exact (filter_eq_self _ txns (fun t => by simp [refMerchantOk, h])).symm
  · rw [applyMerchants, if_neg h]
    exact filter_ext _ _ txns (fun t => by simp [refMerchantOk, h])

theorem applyCategories_eq (cs : List String) (txns : List Txn) :
    applyCategories cs txns = txns.filter (refCategoryOk cs) := by
  by_cases h : cs.isEmpty
  · rw [applyCategories, if_pos h]
    exact (filter_eq_self _ txns (fun t => by simp [refCategoryOk, h])).symm
  · rw [applyCategories, if_neg h]
    exact filter_ext _ _ txns (fun t => by simp [refCategoryOk, h])

/-- The staged filtering of `execute_structured_query` computes exactly the
naive single-scan reference set. -/
theorem filteredSet_eq_reference (f : Filters) (txns : List Txn) :
    filteredSet f txns = referenceFilteredSet f txns := by
  unfold filteredSet referenceFilteredSet referenceMatches
  rw [applyTemporal_eq, applyMerchants_eq, applyCategories_eq,
      filter_filter_and, filter_filter_and]
  exact filter_ext _ _ txns (fun t => (Bool.and_assoc _ _ _).symm)

/-- Every branch of `execute_structured_query` returns the full filtered
set under `filtered_transactions`. -/
theorem exec_filtered_transactions (cls : Classification) (txns : List Txn) :
    (executeStructuredQuery cls txns).filtered_transactions = filteredSet cls.filters txns := by
  unfold executeStructuredQuery
  dsimp only
  split <;> try rfl
  all_goals split <;> try rfl
  all_goals (split <;> rfl)

/-! ### Lemmas on Python `min(l, key=...)` / `max(l, key=...)` -/

theorem minByAmount_cons_lt (acc t : Txn) (ts : List Txn) (hc : t.amount < acc.amount) :
    minByAmount acc (t :: ts) = minByAmount t ts := by
  simp [minByAmount, hc]

theorem minByAmount_cons_ge (acc t : Txn) (ts : List Txn) (hc : ¬t.amount < acc.amount) :
    minByAmount acc (t :: ts) = minByAmount acc ts := by
  simp [minByAmount, hc]

theorem minByAmount_mem (acc : Txn) (l : List Txn) :
    minByAmount acc l ∈ acc :: l := by
  induction l generalizing acc with
  | nil => simp [minByAmount]
  | cons t ts ih =>
    by_cases hc : t.amount < acc.amount
    · rw [minByAmount_cons_lt acc t ts hc]
      have h := ih t
      simp only [List.mem_cons] at h ⊢
      tauto
    · rw [minByAmount_cons_ge acc t ts hc]
      have h := ih acc
      simp only [List.mem_cons] at h ⊢
      tauto

theorem minByAmount_le (acc : Txn) (l : List Txn) :
    ∀ t ∈ acc :: l, (minByAmount acc l).amount ≤ t.amount := by
  induction l generalizing acc with
  | nil =>
    intro t ht
    simp only [List.mem_cons, List.not_mem_nil, or_false] at ht
    subst ht
    simp [minByAmount]
  | cons u us ih =>
    intro t ht
    simp only [List.mem_cons] at ht
    by_cases hc : u.amount < acc.amount
    · rw [minByAmount_cons_lt acc u us hc]
      rcases ht with h | h | h
      · rw [h]
        have h1 := ih u u (by simp)
        omega
      · rw [h]
        exact ih u u (by simp)
      · exact ih u t (by simp [h])
    · rw [minByAmount_cons_ge acc u us hc]
      rcases ht with h | h | h
      · rw [h]
        exact ih acc acc (by simp)
      · rw [h]
        have h1 := ih acc acc (by simp)
        omega
      · exact ih acc t (by simp [h])

theorem minByAmount_first (acc : Txn) (l : List Txn) :
    ∃ l₁ l₂, acc :: l = l₁ ++ minByAmount acc l :: l₂ ∧
      ∀ t ∈ l₁, (minByAmount acc l).amount < t.amount := by
  induction l generalizing acc with
  | nil => exact ⟨[], [], rfl, by simp⟩
  | cons u us ih =>
    by_cases hc : u.amount < acc.amount
    · obtain ⟨l₁, l₂, heq, hall⟩ := ih u
      rw [minByAmount_cons_lt acc u us hc]
      refine ⟨acc :: l₁, l₂, ?_, ?_⟩
      · rw [List.cons_append, ← heq]
      · intro t ht
        rcases List.mem_cons.mp ht with h | h
        · subst h
          have h1 := minByAmount_le u us u (by simp)
          omega
        · exact hall t h
    · obtain ⟨l₁, l₂, heq, hall⟩ := ih acc
      rw [minByAmount_cons_ge acc u us hc]
      cases l₁ with
      | nil =>
        simp only [List.nil_append] at heq
        have h1 : acc = minByAmount acc us := by
          injection heq
        refine ⟨[], u :: us, ?_, by simp⟩
        rw [List.nil_append, ← h1]
      | cons a rest =>
        simp only [List.cons_append, List.cons.injEq] at heq
        obtain ⟨ha, hus⟩ := heq
        refine ⟨acc :: u :: rest, l₂, ?_, ?_⟩
        · rw [List.cons_append, List.cons_append, ← hus]
        · intro t ht
          have hacc : (minByAmount acc us).amount < acc.amount := by
            have h2 := hall a (by simp)
            rw [← ha] at h2
            exact h2
          rcases List.mem_cons.mp ht with h | h
          · subst h; exact hacc
          · rcases List.mem_cons.mp h with h' | h'
            · subst h'; omega
            · exact hall t (by simp [h'])

theorem maxByAmount_cons_lt (acc t : Txn) (ts : List Txn) (hc : acc.amount < t.amount) :
    maxByAmount acc (t :: ts) = maxByAmount t ts := by
  simp [maxByAmount, hc]

theorem maxByAmount_cons_ge (acc t : Txn) (ts : List Txn) (hc : ¬acc.amount < t.amount) :
    maxByAmount acc (t :: ts) = maxByAmount acc ts := by
  simp [maxByAmount, hc]

theorem maxByAmount_mem (acc : Txn) (l : List Txn) :
    maxByAmount acc l ∈ acc :: l := by
  induction l generalizing acc with
  | nil => simp [maxByAmount]
  | cons t ts ih =>
    by_cases hc : acc.amount < t.amount
    · rw [maxByAmount_cons_lt acc t ts hc]
      have h := ih t
      simp only [List.mem_cons] at h ⊢
      tauto
    · rw [maxByAmount_cons_ge acc t ts hc]
      have h := ih acc
      simp only [List.mem_cons] at h ⊢
      tauto

theorem maxByAmount_ge (acc : Txn) (l : List Txn) :
    ∀ t ∈ acc :: l, t.amount ≤ (maxByAmount acc l).amount := by
  induction l generalizing acc with
  | nil =>
    intro t ht
    simp only [List.mem_cons, List.not_mem_nil, or_false] at ht
    subst ht
    simp [maxByAmount]
  | cons u us ih =>
    intro t ht
    simp only [List.mem_cons] at ht
    by_cases hc : acc.amount < u.amount
    · rw [maxByAmount_cons_lt acc u us hc]
      rcases ht with h | h | h
      · rw [h]
        have h1 := ih u u (by simp)
        omega
      · rw [h]
        exact ih u u (by simp)
      · exact ih u t (by simp [h])
    · rw [maxByAmount_cons_ge acc u us hc]
      rcases ht with h | h | h
      · rw [h]
        exact ih acc acc (by simp)
      · rw [h]
        have h1 := ih acc acc (by simp)
        omega
      · exact ih acc t (by simp [h])

/-! ### Behaviour of `execute_structured_query` per intent -/

/-- `find_maximum` with a non-empty expense set: the result is
`min(expenses, key=amount)` and a top-5 list is attached. -/
theorem exec_find_maximum (cls : Classification) (txns : List Txn) (h t : _)
    (hi : cls.intent = Intent.find_maximum)
    (hE : expensesOf (filteredSet cls.filters txns) = h :: t) :
    (executeStructuredQuery cls txns).result = some (QueryResult.txn (minByAmount h t)) ∧
    (executeStructuredQuery cls txns).top_5 =
      some ((sortByAmount (expensesOf (filteredSet cls.filters txns))).take 5) := by
  simp [executeStructuredQuery, hi, hE]

/-- `find_minimum` with a non-empty expense set: the result is
`max(expenses, key=amount)` and no top-5 list is attached. -/
theorem exec_find_minimum (cls : Classification) (txns : List Txn) (h t : _)
    (hi : cls.intent = Intent.find_minimum)
    (hE : expensesOf (filteredSet cls.filters txns) = h :: t) :
    (executeStructuredQuery cls txns).result = some (QueryResult.txn (maxByAmount h t)) ∧
    (executeStructuredQuery cls txns).top_5 = none := by
  simp [executeStructuredQuery, hi, hE]

/-- `find_maximum` with no expense-sign record but a non-empty filtered
set: the computation silently runs over the whole filtered set. -/
theorem exec_max_no_expense (cls : Classification) (txns : List Txn) (h t : _)
    (hi : cls.intent = Intent.find_maximum)
    (hE : expensesOf (filteredSet cls.filters txns) = [])
    (hFc : filteredSet cls.filters txns = h :: t) :
    (executeStructuredQuery cls txns).result = some (QueryResult.txn (minByAmount h t)) := by
  have hE2 : expensesOf (h :: t) = [] := by rw [← hFc]; exact hE
  simp [executeStructuredQuery, hi, hFc, hE2]

/-- `find_minimum`, same fallback. -/
theorem exec_min_no_expense (cls : Classification) (txns : List Txn) (h t : _)
    (hi : cls.intent = Intent.find_minimum)
    (hE : expensesOf (filteredSet cls.filters txns) = [])
    (hFc : filteredSet cls.filters txns = h :: t) :
    (executeStructuredQuery cls txns).result = some (QueryResult.txn (maxByAmount h t)) := by
  have hE2 : expensesOf (h :: t) = [] := by rw [← hFc]; exact hE
  simp [executeStructuredQuery, hi, hFc, hE2]

/-- `calculate_total`, same fallback. -/
theorem exec_total_no_expense (cls : Classification) (txns : List Txn) (h t : _)
    (hi : cls.intent = Intent.calculate_total)
    (hE : expensesOf (filteredSet cls.filters txns) = [])
    (hFc : filteredSet cls.filters txns = h :: t) :
    (executeStructuredQuery cls txns).result =
      some (QueryResult.totalCount (sumAbs (h :: t)) (h :: t).length) := by
  have hE2 : expensesOf (h :: t) = [] := by rw [← hFc]; exact hE
  simp [executeStructuredQuery, hi, hFc, hE2]

/-- `calculate_average`, same fallback. -/
theorem exec_avg_no_expense (cls : Classification) (txns : List Txn) (h t : _)
    (hi : cls.intent = Intent.calculate_average)
    (hE : expensesOf (filteredSet cls.filters txns) = [])
    (hFc : filteredSet cls.filters txns = h :: t) :
    (executeStructuredQuery cls txns).result =
      some (QueryResult.avg ((sumAbs (h :: t) : Rat) / ((h :: t).length : Rat))
        (h :: t).length (sumAbs (h :: t))) := by
  have hE2 : expensesOf (h :: t) = [] := by rw [← hFc]; exact hE
  simp [executeStructuredQuery, hi, hFc, hE2]

/-! ### Demo inputs used by concrete witnesses -/

def txnMortgage : Txn :=
  { id := "trans_2025-01-05_0", description := "Mortgage Payment", amount := -1650,
    purchase_date := "2025-01-05", category := "Bills" }

def txnPhone : Txn :=
  { id := "trans_2025-01-12_1", description := "Verizon Mobile", amount := -95,
    purchase_date := "2025-01-12", category := "Bills" }

def txnPayroll : Txn :=
  { id := "income_2025-01-10", description := "Payroll Deposit", amount := 2500,
    purchase_date := "2025-01-10", category := "Income" }

def demoTxns : List Txn := [txnMortgage, txnPhone]

/-! ### Claim theorems: structured query executor -/

/-- C1: for intent `find_maximum`, when the fully filtered set has
expense-sign records, the result is the single record with the most
negative amount among them — minimal over the complete expense set, and
the first such record in filtered order when several share the extreme
amount. -/
theorem c1_find_maximum_extreme_record (cls : Classification) (txns : List Txn)
    (hi : cls.intent = Intent.find_maximum)
    (hne : expensesOf (filteredSet cls.filters txns) ≠ []) :
    ∃ r, (executeStructuredQuery cls txns).result = some (QueryResult.txn r) ∧
      r ∈ expensesOf (filteredSet cls.filters txns) ∧
      (∀ t ∈ expensesOf (filteredSet cls.filters txns), r.amount ≤ t.amount) ∧
      ∃ l₁ l₂, expensesOf (filteredSet cls.filters txns) = l₁ ++ r :: l₂ ∧
        ∀ t ∈ l₁, r.amount < t.amount := by
  cases hE : expensesOf (filteredSet cls.filters txns) with
  | nil => exact absurd hE hne
  | cons h t =>
    obtain ⟨hres, -⟩ := exec_find_maximum cls txns h t hi hE
    exact ⟨minByAmount h t, hres, minByAmount_mem h t, minByAmount_le h t,
      minByAmount_first h t⟩

/-- C1 witness: concrete evaluation on a two-expense data set. -/
theorem c1_witness :
    ((⟨Intent.find_maximum, {}⟩ : Classification).intent = Intent.find_maximum ∧
     expensesOf (filteredSet ({} : Filters) demoTxns) ≠ []) ∧
    (∃ r, (executeStructuredQuery ⟨Intent.find_maximum, {}⟩ demoTxns).result =
        some (QueryResult.txn r) ∧
      r ∈ expensesOf (filteredSet ({} : Filters) demoTxns) ∧
      (∀ t ∈ expensesOf (filteredSet ({} : Filters) demoTxns), r.amount ≤ t.amount) ∧
      ∃ l₁ l₂, expensesOf (filteredSet ({} : Filters) demoTxns) = l₁ ++ r :: l₂ ∧
        ∀ t ∈ l₁, r.amount < t.amount) :=
  ⟨⟨rfl, by decide⟩, c1_find_maximum_extreme_record ⟨Intent.find_maximum, {}⟩ demoTxns rfl (by decide)⟩

/-- C2: for the five correctness-sensitive intents the matched set
(`filtered_transactions`) is exactly the list of records satisfying the
stated temporal, merchant-substring and category-substring filters as
computed by an independent naive single-scan reference implementation;
in particular the sizes agree. -/
theorem c2_matched_set_reproducible (cls : Classification) (txns : List Txn)
    (_hi : cls.intent ∈ [Intent.find_maximum, Intent.find_minimum, Intent.calculate_total,
                        Intent.calculate_average, Intent.count]) :
    (executeStructuredQuery cls txns).filtered_transactions = referenceFilteredSet cls.filters txns ∧
    (executeStructuredQuery cls txns).filtered_transactions.length =
      (referenceFilteredSet cls.filters txns).length := by
  have h1 := exec_filtered_transactions cls txns
  rw [h1, filteredSet_eq_reference]
  exact ⟨rfl, rfl⟩

/-- C2 witness: concrete evaluation with a merchant filter. -/
theorem c2_witness :
    ((⟨Intent.count, { merchants := ["verizon"] }⟩ : Classification).intent ∈
      [Intent.find_maximum, Intent.find_minimum, Intent.calculate_total,
       Intent.calculate_average, Intent.count]) ∧
    ((executeStructuredQuery ⟨Intent.count, { merchants := ["verizon"] }⟩ demoTxns).filtered_transactions =
        referenceFilteredSet { merchants := ["verizon"] } demoTxns ∧
     (executeStructuredQuery ⟨Intent.count, { merchants := ["verizon"] }⟩ demoTxns).filtered_transactions.length =
        (referenceFilteredSet { merchants := ["verizon"] } demoTxns).length) :=
  ⟨by decide, c2_matched_set_reproducible _ demoTxns (by decide)⟩

/-- C10 (implicit): when the filtered set is non-empty but contains no
expense-sign record, the four spending intents silently compute over the
whole filtered set (income included) instead of returning an empty
result. -/
theorem c10_income_fallback (cls : Classification) (txns : List Txn)
    (hi : cls.intent ∈ [Intent.find_maximum, Intent.find_minimum,
                        Intent.calculate_total, Intent.calculate_average])
    (hE : expensesOf (filteredSet cls.filters txns) = [])
    (hF : filteredSet cls.filters txns ≠ []) :
    (executeStructuredQuery cls txns).result.isSome = true ∧
    (cls.intent = Intent.calculate_total →
      (executeStructuredQuery cls txns).result =
        some (QueryResult.totalCount (sumAbs (filteredSet cls.filters txns))
          (filteredSet cls.filters txns).length)) ∧
    (cls.intent = Intent.calculate_average →
      (executeStructuredQuery cls txns).result =
        some (QueryResult.avg
          ((sumAbs (filteredSet cls.filters txns) : Rat) /
            ((filteredSet cls.filters txns).length : Rat))
          (filteredSet cls.filters txns).length
          (sumAbs (filteredSet cls.filters txns)))) ∧
    (cls.intent = Intent.find_maximum →
      ∃ r, (executeStructuredQuery cls txns).result = some (QueryResult.txn r) ∧
        r ∈ filteredSet cls.filters txns ∧
        ∀ t ∈ filteredSet cls.filters txns, r.amount ≤ t.amount) ∧
    (cls.intent = Intent.find_minimum →
      ∃ r, (executeStructuredQuery cls txns).result = some (QueryResult.txn r) ∧
        r ∈ filteredSet cls.filters txns ∧
        ∀ t ∈ filteredSet cls.filters txns, t.amount ≤ r.amount) := by
  cases hFc : filteredSet cls.filters txns with
  | nil => exact absurd hFc hF
  | cons h t =>
    simp only [List.mem_cons, List.not_mem_nil, or_false] at hi
    rcases hi with hi | hi | hi | hi
    · obtain hr := exec_max_no_expense cls txns h t hi hE hFc
      refine ⟨by rw [hr]; rfl, ?_, ?_, ?_, ?_⟩
      · intro h'; rw [hi] at h'; exact absurd h' (by decide)
      · intro h'; rw [hi] at h'; exact absurd h' (by decide)
      · intro _
        exact ⟨minByAmount h t, hr, minByAmount_mem h t, minByAmount_le h t⟩
      · intro h'; rw [hi] at h'; exact absurd h' (by decide)
    · obtain hr := exec_min_no_expense cls txns h t hi hE hFc
      refine ⟨by rw [hr]; rfl, ?_, ?_, ?_, ?_⟩
      · intro h'; rw [hi] at h'; exact absurd h' (by decide)
      · intro h'; rw [hi] at h'; exact absurd h' (by decide)
      · intro h'; rw [hi] at h'; exact absurd h' (by decide)
      · intro _
        exact ⟨maxByAmount h t, hr, maxByAmount_mem h t, maxByAmount_ge h t⟩
    · obtain hr := exec_total_no_expense cls txns h t hi hE hFc
      refine ⟨by rw [hr]; rfl, fun _ => hr, ?_, ?_, ?_⟩
      · intro h'; rw [hi] at h'; exact absurd h' (by decide)
      · intro h'; rw [hi] at h'; exact absurd h' (by decide)
      · intro h'; rw [hi] at h'; exact absurd h' (by decide)
    · obtain hr := exec_avg_no_expense cls txns h t hi hE hFc
      refine ⟨by rw [hr]; rfl, ?_, fun _ => hr, ?_, ?_⟩
      · intro h'; rw [hi] at h'; exact absurd h' (by decide)
      · intro h'; rw [hi] at h'; exact absurd h' (by decide)
      · intro h'; rw [hi] at h'; exact absurd h' (by decide)

/-- C10 witness: a single income transaction; `calculate_total` computes
over it instead of returning an empty result. -/
theorem c10_witness :
    ((⟨Intent.calculate_total, {}⟩ : Classification).intent ∈
       [Intent.find_maximum, Intent.find_minimum,
        Intent.calculate_total, Intent.calculate_average] ∧
     expensesOf (filteredSet ({} : Filters) [txnPayroll]) = [] ∧
     filteredSet ({} : Filters) [txnPayroll] ≠ []) ∧
    ((executeStructuredQuery ⟨Intent.calculate_total, {}⟩ [txnPayroll]).result.isSome = true ∧
     ((⟨Intent.calculate_total, {}⟩ : Classification).intent = Intent.calculate_total →
       (executeStructuredQuery ⟨Intent.calculate_total, {}⟩ [txnPayroll]).result =
         some (QueryResult.totalCount (sumAbs (filteredSet ({} : Filters) [txnPayroll]))
           (filteredSet ({} : Filters) [txnPayroll]).length)) ∧
     ((⟨Intent.calculate_total, {}⟩ : Classification).intent = Intent.calculate_average →
       (executeStructuredQuery ⟨Intent.calculate_total, {}⟩ [txnPayroll]).result =
         some (QueryResult.avg
           ((sumAbs (filteredSet ({} : Filters) [txnPayroll]) : Rat) /
             ((filteredSet ({} : Filters) [txnPayroll]).length : Rat))
           (filteredSet ({} : Filters) [txnPayroll]).length
           (sumAbs (filteredSet ({} : Filters) [txnPayroll])))) ∧
     ((⟨Intent.calculate_total, {}⟩ : Classification).intent = Intent.find_maximum →
       ∃ r, (executeStructuredQuery ⟨Intent.calculate_total, {}⟩ [txnPayroll]).result =
           some (QueryResult.txn r) ∧
         r ∈ filteredSet ({} : Filters) [txnPayroll] ∧
         ∀ t ∈ filteredSet ({} : Filters) [txnPayroll], r.amount ≤ t.amount) ∧
     ((⟨Intent.calculate_total, {}⟩ : Classification).intent = Intent.find_minimum →
       ∃ r, (executeStructuredQuery ⟨Intent.calculate_total, {}⟩ [txnPayroll]).result =
           some (QueryResult.txn r) ∧
         r ∈ filteredSet ({} : Filters) [txnPayroll] ∧
         ∀ t ∈ filteredSet ({} : Filters) [txnPayroll], t.amount ≤ r.amount)) :=
  ⟨⟨by decide, by decide, by decide⟩,
   c10_income_fallback ⟨Intent.calculate_total, {}⟩ [txnPayroll]
     (by decide) (by decide) (by decide)⟩

/-! ### Claim C5: top-5 context list -/

/-- C5 counterexample: on a non-empty expense set, intent `find_minimum`
returns the single record but no top-5 list — the claim that both
`find_maximum` and `find_minimum` return a top-5 list fails. -/
theorem c5_counterexample :
    expensesOf (filteredSet ({} : Filters) demoTxns) ≠ [] ∧
    (executeStructuredQuery ⟨Intent.find_minimum, {}⟩ demoTxns).result.isSome = true ∧
    (executeStructuredQuery ⟨Intent.find_minimum, {}⟩ demoTxns).top_5 = none := by decide

/-- C5 (amended): on a non-empty filtered expense set, only the
`find_maximum` intent returns, alongside the single extreme record, a
top-5 list (of at most five records drawn from the expense set);
`find_minimum` returns the single record with no top-5 list. -/
theorem c5_amended_top5_only_for_maximum (cls : Classification) (txns : List Txn)
    (hne : expensesOf (filteredSet cls.filters txns) ≠ []) :
    (cls.intent = Intent.find_maximum →
      ∃ l, (executeStructuredQuery cls txns).top_5 = some l ∧
        l.length = min 5 (expensesOf (filteredSet cls.filters txns)).length ∧
        ∀ t ∈ l, t ∈ expensesOf (filteredSet cls.filters txns)) ∧
    (cls.intent = Intent.find_minimum →
      (executeStructuredQuery cls txns).result.isSome = true ∧
      (executeStructuredQuery cls txns).top_5 = none) := by
  cases hE : expensesOf (filteredSet cls.filters txns) with
  | nil => exact absurd hE hne
  | cons h t =>
    constructor
    · intro hi
      obtain ⟨-, htop⟩ := exec_find_maximum cls txns h t hi hE
      rw [hE] at htop
      refine ⟨(sortByAmount (h :: t)).take 5, htop, ?_, ?_⟩
      · unfold sortByAmount
        rw [List.length_take, List.length_insertionSort]
      · intro x hx
        have h1 : x ∈ sortByAmount (h :: t) := List.take_subset _ _ hx
        unfold sortByAmount at h1
        exact (List.mem_insertionSort _).mp h1
    · intro hi
      obtain ⟨hres, htop⟩ := exec_find_minimum cls txns h t hi hE
      exact ⟨by rw [hres]; rfl, htop⟩

/-- C5 witness: concrete `find_maximum` evaluation. -/
theorem c5_witness :
    expensesOf (filteredSet ({} : Filters) demoTxns) ≠ [] ∧
    (((⟨Intent.find_maximum, {}⟩ : Classification).intent = Intent.find_maximum →
       ∃ l, (executeStructuredQuery ⟨Intent.find_maximum, {}⟩ demoTxns).top_5 = some l ∧
         l.length = min 5 (expensesOf (filteredSet ({} : Filters) demoTxns)).length ∧
         ∀ t ∈ l, t ∈ expensesOf (filteredSet ({} : Filters) demoTxns)) ∧
     ((⟨Intent.find_maximum, {}⟩ : Classification).intent = Intent.find_minimum →
       (executeStructuredQuery ⟨Intent.find_maximum, {}⟩ demoTxns).result.isSome = true ∧
       (executeStructuredQuery ⟨Intent.find_maximum, {}⟩ demoTxns).top_5 = none)) :=
  ⟨by decide, c5_amended_top5_only_for_maximum ⟨Intent.find_maximum, {}⟩ demoTxns (by decide)⟩

/-! ### Claim C3: soft-delete overlay vs the query pipeline -/

/-- The overlay application of `get_all_transactions` (app.py, lines
1167–1174): merge the `deleted` mark of the `TRANSACTION_UPDATES` entry
into each transaction dictionary, then drop every transaction whose
`deleted` flag is set. (Only the deletion aspect of the update overlay is
relevant here.) -/
def applyUpdatesOverlay (deletedIds : List String) (txns : List Txn) : List Txn :=
  (txns.map (fun t => if t.id ∈ deletedIds then { t with deleted := true } else t)).filter
    (fun t => !t.deleted)

/-- The transaction source of chat_with_rag's structured path (app.py,
line 3186): `CACHED_TRANSACTIONS.get('data', [])`, the raw cache — the
updates overlay is never applied on this path. -/
def chatStructuredTransactions (cachedData : List Txn) : List Txn := cachedData

/-- C3: the structured query pipeline reads the raw transaction cache, so
a transaction whose id is soft-deleted in the updates overlay still
appears in the `StructuredResult` matched set, while the overlay (as
applied by `get_all_transactions`) would have removed it. -/
theorem c3_deleted_id_reaches_matched_set :
    applyUpdatesOverlay ["trans_2025-01-05_0"] demoTxns = [txnPhone] ∧
    (executeStructuredQuery ⟨Intent.count, {}⟩
        (chatStructuredTransactions demoTxns)).filtered_transactions.any
      (fun t => t.id == "trans_2025-01-05_0") = true := by decide

/-! ### Claim C7/C8: the LLM temporal extractor -/

/-- The fields of the decoded JSON object that `extract_temporal_with_llm`
reads from the LLM response. -/
structure LLMTemporalResponse where
  no_temporal : Bool := false
  start_date : Option String := none
  end_date : Option String := none
deriving Repr, DecidableEq

/-- `extract_temporal_with_llm` (rag_service.py), with the network call
and the `json.loads` decode abstracted as an `Except` input: `.error` =
the call raised or the response was unparseable (the `except` branch
runs), `.ok r` = the decoded response object. A single call (cache miss)
is modelled; the query and reference datetime only feed the prompt. -/
def extractTemporalWithLLM (query : String) (current : Date)
    (outcome : Except String LLMTemporalResponse) : Option Temporal :=
  match query, current, outcome with
  | _, _, Except.error _ => none
  | _, _, Except.ok r =>
    if r.no_temporal then none
    else some { start_date := r.start_date, end_date := r.end_date }

/-- C8: if the temporal-extraction LLM call raises or its response is
unparseable, `extract_temporal_with_llm` returns no temporal filter
("all time") instead of propagating an exception. -/
theorem c8_temporal_extraction_failure_returns_none
    (query : String) (current : Date) (e : String) :
    extractTemporalWithLLM query current (Except.error e) = none := rfl

/-- C7 counterexample: the LLM extractor copies `start_date`/`end_date`
out of the response with no validation, so a decodable response with the
endpoints swapped yields a `TemporalFilter` whose start exceeds its end —
the claim that every filter produced by the system satisfies
`start <= end` fails. -/
theorem c7_counterexample :
    extractTemporalWithLLM "what did I spend around the holidays?" ⟨2025, 1, 15⟩
        (Except.ok { no_temporal := false, start_date := some "2025-12-31",
                     end_date := some "2025-01-01" }) =
      some { start_date := some "2025-12-31", end_date := some "2025-01-01" } ∧
    strLeB "2025-12-31" "2025-01-01" = false := ⟨rfl, by decide⟩

/-! ### Calendar arithmetic (Python `timedelta` at day granularity) -/

/-- `date - timedelta(days=1)` on the proleptic Gregorian calendar. -/
def subOneDay (d : Date) : Date :=
  if 1 < d.day then ⟨d.year, d.month, d.day - 1⟩
  else if 1 < d.month then ⟨d.year, d.month - 1, daysInMonth d.year (d.month - 1)⟩
  else ⟨d.year - 1, 12, 31⟩

/-- `date - timedelta(days=k)`. -/
def subDays : Nat → Date → Date
  | 0, d => d
  | k + 1, d => subDays k (subOneDay d)

/-- `datetime.weekday()` (Monday = 0): Sakamoto's method shifted from
Sunday-first to Monday-first. -/
def weekday (d : Date) : Nat :=
  (((if d.month < 3 then d.year - 1 else d.year) +
    (if d.month < 3 then d.year - 1 else d.year) / 4 -
    (if d.month < 3 then d.year - 1 else d.year) / 100 +
    (if d.month < 3 then d.year - 1 else d.year) / 400 +
    [0, 3, 2, 5, 0, 3, 5, 1, 4, 6, 2, 4].getD (d.month - 1) 0 + d.day) % 7 + 6) % 7

/-- A decimal digit character. -/
def dg (n : Nat) : Char := Char.ofNat (48 + n)

/-- `strftime('%Y-%m-%d')` for in-range dates: zero-padded 4-2-2 digits. -/
def fmtDate (d : Date) : String :=
  ⟨[dg (d.year / 1000 % 10), dg (d.year / 100 % 10), dg (d.year / 10 % 10), dg (d.year % 10),
    '-', dg (d.month / 10 % 10), dg (d.month % 10),
    '-', dg (d.day / 10 % 10), dg (d.day % 10)]⟩

theorem weekday_le (d : Date) : weekday d ≤ 6 := by
  unfold weekday
  omega

theorem daysInMonth_ge (y m : Nat) : 28 ≤ daysInMonth y m := by
  unfold daysInMonth
  split
  · split <;> omega
  · split <;> omega

theorem daysInMonth_le31 (y m : Nat) : daysInMonth y m ≤ 31 := by
  unfold daysInMonth
  split
  · split <;> omega
  · split <;> omega

theorem subDays_add (a b : Nat) (x : Date) : subDays a (subDays b x) = subDays (a + b) x := by
  induction b generalizing x with
  | zero => rfl
  | succ k ih =>
    have h1 : subDays (k + 1) x = subDays k (subOneDay x) := rfl
    have h2 : subDays (a + (k + 1)) x = subDays (a + k) (subOneDay x) := by
      have h3 : a + (k + 1) = (a + k) + 1 := by omega
      rw [h3]
      exact rfl
    rw [h1, ih, h2]

/-! ### Lexicographic order on formatted dates -/

theorem lexLe_refl (l : List Char) : lexLe l l = true := by
  induction l with
  | nil => rfl
  | cons c cs ih => simp [lexLe, ih]

theorem lexLe_cons_self (c : Char) (r1 r2 : List Char) (h : lexLe r1 r2 = true) :
    lexLe (c :: r1) (c :: r2) = true := by simp [lexLe, h]

theorem lexLe_cons_lt (c d : Char) (hcd : c < d) (r1 r2 : List Char) :
    lexLe (c :: r1) (d :: r2) = true := by
  have hne : ¬c = d := fun h => absurd (h ▸ hcd) (lt_irrefl _)
  simp [lexLe, hne, hcd]

theorem lexLe_trans (a b c : List Char) (h1 : lexLe a b = true) (h2 : lexLe b c = true) :
    lexLe a c = true := by
  induction a generalizing b c with
  | nil => rfl
  | cons x xs ih =>
    cases b with
    | nil => exact absurd h1 (by simp [lexLe])
    | cons y ys =>
      cases c with
      | nil => exact absurd h2 (by simp [lexLe])
      | cons z zs =>
        simp only [lexLe] at h1 h2 ⊢
        by_cases hxy : x = y
        · subst hxy
          rw [if_pos rfl] at h1
          by_cases hxz : x = z
          · subst hxz
            rw [if_pos rfl] at h2
            rw [if_pos rfl]
            exact ih ys zs h1 h2
          · rw [if_neg hxz] at h2
            rw [if_neg hxz]
            exact h2
        · rw [if_neg hxy] at h1
          have hxy' : x < y := of_decide_eq_true h1
          by_cases hyz : y = z
          · subst hyz
            rw [if_neg hxy]
            exact decide_eq_true hxy'
          · rw [if_neg hyz] at h2
            have hyz' : y < z := of_decide_eq_true h2
            have hxz' : x < z := lt_trans hxy' hyz'
            have hne : ¬x = z := fun h => absurd (h ▸ hxz') (lt_irrefl _)
            rw [if_neg hne]
            exact decide_eq_true hxz'

theorem strLeB_trans (a b c : String) (h1 : strLeB a b = true) (h2 : strLeB b c = true) :
    strLeB a c = true := lexLe_trans a.data b.data c.data h1 h2

theorem lexLe_append_same (p a b : List Char) (h : lexLe a b = true) :
    lexLe (p ++ a) (p ++ b) = true := by
  induction p with
  | nil => exact h
  | cons c cs ih => simp [lexLe, ih]

theorem strLeB_append_left (p a b : String) (h : strLeB a b = true) :
    strLeB (p ++ a) (p ++ b) = true := by
  unfold strLeB
  rw [String.data_append, String.data_append]
  exact lexLe_append_same p.data a.data b.data h

theorem dg_lt_of (a b : Nat) (ha : a < 10) (hb : b < 10) (h : a < b) : dg a < dg b := by
  interval_cases a <;> interval_cases b <;> revert h <;> decide

theorem lexLe_two_block_lt (a b : Nat) (hab : a < b) (hb : b ≤ 99) (r1 r2 : List Char) :
    lexLe (dg (a / 10 % 10) :: dg (a % 10) :: r1)
          (dg (b / 10 % 10) :: dg (b % 10) :: r2) = true := by
  by_cases h : a / 10 % 10 = b / 10 % 10
  · rw [h]
    apply lexLe_cons_self
    exact lexLe_cons_lt _ _ (dg_lt_of _ _ (by omega) (by omega) (by omega)) _ _
  · exact lexLe_cons_lt _ _ (dg_lt_of _ _ (by omega) (by omega) (by omega)) _ _

theorem lexLe_four_block_lt (a b : Nat) (hab : a < b) (hb : b ≤ 9999) (r1 r2 : List Char) :
    lexLe (dg (a / 1000 % 10) :: dg (a / 100 % 10) :: dg (a / 10 % 10) :: dg (a % 10) :: r1)
          (dg (b / 1000 % 10) :: dg (b / 100 % 10) :: dg (b / 10 % 10) :: dg (b % 10) :: r2)
      = true := by
  by_cases h3 : a / 1000 % 10 = b / 1000 % 10
  · rw [h3]
    apply lexLe_cons_self
    by_cases h2 : a / 100 % 10 = b / 100 % 10
    · rw [h2]
      apply lexLe_cons_self
      by_cases h1 : a / 10 % 10 = b / 10 % 10
      · rw [h1]
        apply lexLe_cons_self
        exact lexLe_cons_lt _ _ (dg_lt_of _ _ (by omega) (by omega) (by omega)) _ _
      · exact lexLe_cons_lt _ _ (dg_lt_of _ _ (by omega) (by omega) (by omega)) _ _
    · exact lexLe_cons_lt _ _ (dg_lt_of _ _ (by omega) (by omega) (by omega)) _ _
  · exact lexLe_cons_lt _ _ (dg_lt_of _ _ (by omega) (by omega) (by omega)) _ _

/-- One backwards day step also steps the formatted date down (weakly),
keeps the month/day fields in calendar range, and lowers the year by at
most one. -/
theorem subOneDay_step (x : Date)
    (hm1 : 1 ≤ x.month) (hm2 : x.month ≤ 12) (hd1 : 1 ≤ x.day) (hd2 : x.day ≤ 31)
    (hy1 : 1 ≤ x.year) (hy2 : x.year ≤ 9999) :
    strLeB (fmtDate (subOneDay x)) (fmtDate x) = true ∧
    (1 ≤ (subOneDay x).month ∧ (subOneDay x).month ≤ 12 ∧
     1 ≤ (subOneDay x).day ∧ (subOneDay x).day ≤ 31) ∧
    x.year ≤ (subOneDay x).year + 1 ∧ (subOneDay x).year ≤ x.year := by
  obtain ⟨y, m, d⟩ := x
  simp only at hm1 hm2 hd1 hd2 hy1 hy2
  by_cases h1 : 1 < d
  · simp only [subOneDay, if_pos h1]
    refine ⟨?_, ⟨hm1, hm2, by omega, by omega⟩, by omega, le_refl y⟩
    simp only [strLeB, fmtDate]
    apply lexLe_cons_self
    apply lexLe_cons_self
    apply lexLe_cons_self
    apply lexLe_cons_self
    apply lexLe_cons_self
    apply lexLe_cons_self
    apply lexLe_cons_self
    apply lexLe_cons_self
    exact lexLe_two_block_lt (d - 1) d (by omega) (by omega) [] []
  · by_cases h2 : 1 < m
    · simp only [subOneDay, if_neg h1, if_pos h2]
      have hg := daysInMonth_ge y (m - 1)
      have hl := daysInMonth_le31 y (m - 1)
      refine ⟨?_, ⟨by omega, by omega, by omega, by omega⟩, by omega, le_refl y⟩
      simp only [strLeB, fmtDate]
      apply lexLe_cons_self
      apply lexLe_cons_self
      apply lexLe_cons_self
      apply lexLe_cons_self
      apply lexLe_cons_self
      exact lexLe_two_block_lt (m - 1) m (by omega) (by omega) _ _
    · simp only [subOneDay, if_neg h1, if_neg h2]
      refine ⟨?_, ⟨by omega, by omega, by omega, by omega⟩, by omega, by omega⟩
      simp only [strLeB, fmtDate]
      exact lexLe_four_block_lt (y - 1) y (by omega) (by omega) _ _

/-- Iterating backwards day steps keeps the formatted date weakly
decreasing, provided the reference year stays positive. -/
theorem subDays_chain (n : Nat) (x : Date)
    (hm1 : 1 ≤ x.month) (hm2 : x.month ≤ 12) (hd1 : 1 ≤ x.day) (hd2 : x.day ≤ 31)
    (hy1 : n + 1 ≤ x.year) (hy2 : x.year ≤ 9999) :
    strLeB (fmtDate (subDays n x)) (fmtDate x) = true ∧
    (1 ≤ (subDays n x).month ∧ (subDays n x).month ≤ 12 ∧
     1 ≤ (subDays n x).day ∧ (subDays n x).day ≤ 31) ∧
    x.year ≤ (subDays n x).year + n ∧ (subDays n x).year ≤ x.year := by
  induction n generalizing x with
  | zero =>
    simp only [subDays]
    exact ⟨lexLe_refl _, ⟨hm1, hm2, hd1, hd2⟩, by omega, le_refl _⟩
  | succ k ih =>
    obtain ⟨hstep, ⟨a1, a2, a3, a4⟩, b1, b2⟩ := subOneDay_step x hm1 hm2 hd1 hd2 (by omega) hy2
    obtain ⟨hchain, hv, c1, c2⟩ := ih (subOneDay x) a1 a2 a3 a4 (by omega) (by omega)
    have hsub : subDays (k + 1) x = subDays k (subOneDay x) := rfl
    rw [hsub]
    exact ⟨strLeB_trans _ _ _ hchain hstep, hv, by omega, by omega⟩

/-- Subtracting more days yields a formatted date that compares no later,
for bounded step counts from a modern reference date. -/
theorem subDays_fmt_mono (x : Date) (j k : Nat) (hjk : j ≤ k) (hk : k ≤ 20)
    (hm1 : 1 ≤ x.month) (hm2 : x.month ≤ 12) (hd1 : 1 ≤ x.day) (hd2 : x.day ≤ 31)
    (hy1 : 1000 ≤ x.year) (hy2 : x.year ≤ 9999) :
    strLeB (fmtDate (subDays k x)) (fmtDate (subDays j x)) = true := by
  obtain ⟨-, ⟨a1, a2, a3, a4⟩, b1, b2⟩ := subDays_chain j x hm1 hm2 hd1 hd2 (by omega) hy2
  have hcomp : subDays k x = subDays (k - j) (subDays j x) := by
    rw [subDays_add]
    congr 1
    omega
  rw [hcomp]
  exact (subDays_chain (k - j) (subDays j x) a1 a2 a3 a4 (by omega) (by omega)).1

/-! ### The rule-based relative-period resolver
(rag_service.py, `_classify_financial_query_rule_based`, temporal part) -/

/-- The relative-period branch chain of the rule-based classifier
(`this month` … `last year`, checked in source order against the lowered
query); `none` = no branch fired. -/
def relativeTemporal (query_lower : String) (today : Date) : Option Temporal :=
  if substrB "this month" query_lower then
    some { month := some today.month, year := some today.year }
  else if substrB "last month" query_lower then
    some { month := some (subOneDay ⟨today.year, today.month, 1⟩).month,
           year := some (subOneDay ⟨today.year, today.month, 1⟩).year }
  else if substrB "last week" query_lower then
    some { start_date := some (fmtDate (subDays 7 (subDays (weekday today) today))),
           end_date := some (fmtDate (subDays 1 (subDays (weekday today) today))) }
  else if substrB "this week" query_lower then
    some { start_date := some (fmtDate (subDays (weekday today) today)) }
  else if substrB "today" query_lower then
    some { date := some (fmtDate today) }
  else if substrB "yesterday" query_lower then
    some { date := some (fmtDate (subDays 1 today)) }
  else if substrB "recently" query_lower || substrB "recent" query_lower then
    some { start_date := some (fmtDate (subDays 7 today)) }
  else if substrB "this year" query_lower then
    some { start_date := some (fmtDate ⟨today.year, 1, 1⟩) }
  else if substrB "last year" query_lower then
    some { start_date := some (toString (today.year - 1) ++ "-01-01"),
           end_date := some (toString (today.year - 1) ++ "-12-31") }
  else none

/-- C6: for a query naming "last month" (and not "this month"), the
rule-based resolver yields the month immediately preceding the reference
month, rolling a January reference over to December of the prior year. -/
theorem c6_last_month_rollover (ql : String) (today : Date)
    (hq1 : substrB "last month" ql = true) (hq2 : substrB "this month" ql = false)
    (hm1 : 1 ≤ today.month) (hm2 : today.month ≤ 12) (_hy : 1 ≤ today.year) :
    relativeTemporal ql today =
      some { month := some (if today.month = 1 then 12 else today.month - 1),
             year := some (if today.month = 1 then today.year - 1 else today.year) } := by
  by_cases hm : today.month = 1
  · simp [relativeTemporal, hq1, hq2, subOneDay, hm]
  · have h2 : 1 < today.month := by omega
    simp [relativeTemporal, hq1, hq2, subOneDay, hm, h2]

/-- C6 witness: reference date January 15, 2025 resolves "last month" to
December 2024. -/
theorem c6_witness :
    (substrB "last month" "last month" = true ∧
     substrB "this month" "last month" = false ∧
     1 ≤ (⟨2025, 1, 15⟩ : Date).month ∧ (⟨2025, 1, 15⟩ : Date).month ≤ 12 ∧
     1 ≤ (⟨2025, 1, 15⟩ : Date).year) ∧
    relativeTemporal "last month" ⟨2025, 1, 15⟩ =
      some { month := some (if (⟨2025, 1, 15⟩ : Date).month = 1 then 12
                            else (⟨2025, 1, 15⟩ : Date).month - 1),
             year := some (if (⟨2025, 1, 15⟩ : Date).month = 1 then (⟨2025, 1, 15⟩ : Date).year - 1
                           else (⟨2025, 1, 15⟩ : Date).year) } :=
  ⟨⟨by decide, by decide, by decide, by decide, by decide⟩,
   c6_last_month_rollover "last month" ⟨2025, 1, 15⟩ (by decide) (by decide)
     (by decide) (by decide) (by decide)⟩

/-- C7 (amended): every temporal filter produced by the rule-based
relative-period resolver that carries both a start and an end satisfies
start ≤ end under Python string comparison of the formatted dates;
filters coming from the LLM extractor are passed through unvalidated and
can violate the invariant (see the counterexample). -/
theorem c7_amended_rule_based_range_ordered (ql : String) (today : Date)
    (tm : Temporal) (s e : String)
    (hm1 : 1 ≤ today.month) (hm2 : today.month ≤ 12)
    (hd1 : 1 ≤ today.day) (hd2 : today.day ≤ 31)
    (hy1 : 1000 ≤ today.year) (hy2 : today.year ≤ 9999)
    (hrel : relativeTemporal ql today = some tm)
    (hs : tm.start_date = some s) (he : tm.end_date = some e) :
    strLeB s e = true := by
  unfold relativeTemporal at hrel
  split_ifs at hrel with h1 h2 h3 h4 h5 h6 h7 h8 h9
  · injection hrel with h; subst h; exact Option.noConfusion hs
  · injection hrel with h; subst h; exact Option.noConfusion hs
  · injection hrel with h; subst h
    injection hs with hs'; subst hs'
    injection he with he'; subst he'
    rw [subDays_add, subDays_add]
    have hw := weekday_le today
    exact subDays_fmt_mono today (1 + weekday today) (7 + weekday today)
      (by omega) (by omega) hm1 hm2 hd1 hd2 hy1 hy2
  · injection hrel with h; subst h; exact Option.noConfusion he
  · injection hrel with h; subst h; exact Option.noConfusion hs
  · injection hrel with h; subst h; exact Option.noConfusion hs
  · injection hrel with h; subst h; exact Option.noConfusion he
  · injection hrel with h; subst h; exact Option.noConfusion he
  · injection hrel with h; subst h
    injection hs with hs'; subst hs'
    injection he with he'; subst he'
    exact strLeB_append_left (toString (today.year - 1)) "-01-01" "-12-31" (by decide)

/-- C7 witness: "last year" at reference 2025-01-15 yields the range
2024-01-01 … 2024-12-31, which is ordered. -/
theorem c7_witness :
    (1 ≤ (⟨2025, 1, 15⟩ : Date).month ∧ (⟨2025, 1, 15⟩ : Date).month ≤ 12 ∧
     1 ≤ (⟨2025, 1, 15⟩ : Date).day ∧ (⟨2025, 1, 15⟩ : Date).day ≤ 31 ∧
     1000 ≤ (⟨2025, 1, 15⟩ : Date).year ∧ (⟨2025, 1, 15⟩ : Date).year ≤ 9999 ∧
     relativeTemporal "last year" ⟨2025, 1, 15⟩ =
       some { start_date := some "2024-01-01", end_date := some "2024-12-31" } ∧
     ({ start_date := some "2024-01-01", end_date := some "2024-12-31" } : Temporal).start_date
       = some "2024-01-01" ∧
     ({ start_date := some "2024-01-01", end_date := some "2024-12-31" } : Temporal).end_date
       = some "2024-12-31") ∧
    strLeB "2024-01-01" "2024-12-31" = true :=
  ⟨⟨by decide, by decide, by decide, by decide, by decide, by decide, by decide, rfl, rfl⟩,
   c7_amended_rule_based_range_ordered "last year" ⟨2025, 1, 15⟩
     { start_date := some "2024-01-01", end_date := some "2024-12-31" }
     "2024-01-01" "2024-12-31" (by decide) (by decide) (by decide) (by decide)
     (by decide) (by decide) (by decide) rfl rfl⟩

/-! ### Intent classification (rag_service.py) -/

def recent_keywords : List String :=
  ["most recent", "latest", "newest", "last purchase", "recent purchase"]

def max_keywords : List String :=
  ["biggest", "largest", "most expensive", "highest", "maximum", "max"]

def min_keywords : List String :=
  ["smallest", "cheapest", "lowest", "minimum", "min", "least expensive"]

def sum_keywords : List String :=
  ["total", "sum", "how much did i spend", "how much have i spent",
   "how much spent", "add up", "altogether"]

def avg_keywords : List String :=
  ["average", "avg", "mean", "typically spend", "usually spend", "on average"]

def count_keywords : List String :=
  ["how many", "how often", "number of", "count", "times did i"]

def list_keywords : List String :=
  ["show me", "list", "what did i buy", "what were my", "display"]

/-- The intent-detection chain of `_classify_financial_query_rule_based`:
ordered keyword-group matching against the lowered query, recency checked
first. -/
def ruleBasedIntent (query : String) : Intent :=
  if recent_keywords.any (fun k => substrB k (strLower query)) then Intent.find_recent
  else if max_keywords.any (fun k => substrB k (strLower query)) then Intent.find_maximum
  else if min_keywords.any (fun k => substrB k (strLower query)) then Intent.find_minimum
  else if sum_keywords.any (fun k => substrB k (strLower query)) then Intent.calculate_total
  else if avg_keywords.any (fun k => substrB k (strLower query)) then Intent.calculate_average
  else if count_keywords.any (fun k => substrB k (strLower query)) then Intent.count
  else if list_keywords.any (fun k => substrB k (strLower query)) then Intent.list
  else Intent.general

def complex_patterns : List String :=
  ["should i", "is it worth", "do you think", "would you recommend",
   "compare", "better", "worth it", "good idea",
   "what is", "what are", "how do", "explain", "tell me about",
   "it", "they", "that", "this", "those",
   "around the holidays", "holiday season", "tax season", "summer", "winter",
   "advice", "suggest", "recommend", "help me", "tips",
   " and ", " or ", " but ", " versus ", " vs "]

def financial_keywords : List String :=
  ["spend", "spent", "cost", "pay", "paid", "buy", "bought",
   "expense", "income", "budget", "money", "dollar", "$",
   "transaction", "purchase", "bill", "subscription"]

/-- `_needs_llm_classification` (rag_service.py): escalate on a
complex-pattern phrase, on a `general` rule-based intent with financial
vocabulary, or on a question of more than five words. -/
def needsLLMClassification (query : String) (ruleIntent : Intent) : Bool :=
  if complex_patterns.any (fun p => substrB p (strLower query)) then true
  else if ruleIntent == Intent.general &&
          financial_keywords.any (fun k => substrB k (strLower query)) then true
  else if substrB "?" query && decide (5 < (pyWords query).length) then true
  else false

/-- Outcome of the hybrid classifier: the chosen intent and whether the
LLM classifier was invoked. -/
structure HybridOutcome where
  intent : Intent
  calledLLM : Bool
deriving Repr, DecidableEq

/-- The `mode='hybrid'` path of `classify_financial_query`: run the
rule-based pass, escalate to the LLM iff `_needs_llm_classification`
accepts; the LLM classifier's answer is abstracted as the `llmIntent`
parameter. -/
def classifyFinancialQueryHybrid (query : String) (llmIntent : Intent) : HybridOutcome :=
  if needsLLMClassification query (ruleBasedIntent query) then
    { intent := llmIntent, calledLLM := true }
  else
    { intent := ruleBasedIntent query, calledLLM := false }

/-- C4 counterexample: "what was my biggest expense last month?" gets the
clear structured rule-based intent `find_maximum`, yet hybrid mode still
invokes the LLM because the query is a question of more than five words. -/
theorem c4_counterexample :
    ruleBasedIntent "what was my biggest expense last month?" = Intent.find_maximum ∧
    (classifyFinancialQueryHybrid "what was my biggest expense last month?"
      Intent.general).calledLLM = true := by decide

/-- C4 (amended): hybrid mode skips the LLM exactly when the escalation
predicate declines; in particular, for a query with a clear (non-general)
rule-based intent that contains no complex-pattern phrase and is not a
question of more than five words, the rule-based result is returned
without invoking the LLM. A long question is escalated even when the
rule-based intent is clear (see the counterexample). -/
theorem c4_amended_hybrid_llm_skip (query : String) (llmIntent : Intent)
    (h1 : complex_patterns.any (fun p => substrB p (strLower query)) = false)
    (h2 : ruleBasedIntent query ≠ Intent.general)
    (h3 : (substrB "?" query && decide (5 < (pyWords query).length)) = false) :
    (classifyFinancialQueryHybrid query llmIntent).calledLLM = false ∧
    (classifyFinancialQueryHybrid query llmIntent).intent = ruleBasedIntent query := by
  have hb : (ruleBasedIntent query == Intent.general) = false := by
    cases hq : ruleBasedIntent query == Intent.general
    · rfl
    · exact absurd (eq_of_beq hq) h2
  have hn : needsLLMClassification query (ruleBasedIntent query) = false := by
    unfold needsLLMClassification
    rw [h1, hb, h3]
    simp
  unfold classifyFinancialQueryHybrid
  rw [hn]
  simp

/-- C4 witness: "biggest expense" stays on the rule-based path. -/
theorem c4_witness :
    (complex_patterns.any (fun p => substrB p (strLower "biggest expense")) = false ∧
     ruleBasedIntent "biggest expense" ≠ Intent.general ∧
     (substrB "?" "biggest expense" &&
       decide (5 < (pyWords "biggest expense").length)) = false) ∧
    ((classifyFinancialQueryHybrid "biggest expense" Intent.general).calledLLM = false ∧
     (classifyFinancialQueryHybrid "biggest expense" Intent.general).intent =
       ruleBasedIntent "biggest expense") :=
  ⟨⟨by decide, by decide, by decide⟩,
   c4_amended_hybrid_llm_skip "biggest expense" Intent.general
     (by decide) (by decide) (by decide)⟩

/-! ### `filter_transactions_with_llm` (app.py) -/

/-- The dictionary returned by `filter_transactions_with_llm`. -/
structure FilterResult where
  matching_transactions : List Txn
  matching_merchants : List String
  reasoning : String
deriving Repr, DecidableEq

/-- The fields of the decoded JSON object from the merchant-matching LLM. -/
structure LLMFilterResponse where
  matching_merchants : List String := []
  reasoning : String := ""
deriving Repr, DecidableEq

/-- The coffee keyword heuristic of the fallback branch. -/
def coffee_fallback_keywords : List String :=
  ["starbucks", "coffee", "cafe", "dunkin", "peets", "espresso"]

/-- `filter_transactions_with_llm` (app.py), with the LLM call plus JSON
decode abstracted as `Except String LLMFilterResponse` (error = the
`except` branch runs, carrying `str(e)`). The 50-merchant cap only trims
the prompt text and the distinct-merchant set is modelled by `dedup`
(only its emptiness matters to the control flow). -/
def filterTransactionsWithLLM (query : String) (transactions : List Txn)
    (temporal_filtered : Option (List Txn))
    (outcome : Except String LLMFilterResponse) : FilterResult :=
  let txns_to_analyze :=
    match temporal_filtered with
    | some l => if l.isEmpty then transactions else l
    | none => transactions
  if txns_to_analyze.isEmpty then
    ⟨[], [], "No transactions to analyze"⟩
  else if ((txns_to_analyze.map (fun t => t.description)).filter
             (fun d => !d.isEmpty)).dedup.isEmpty then
    ⟨[], [], "No merchants found"⟩
  else
    match outcome with
    | Except.ok r =>
      ⟨txns_to_analyze.filter (fun t =>
          r.matching_merchants.any (fun m =>
            substrB (strLower m) (strLower t.description) ||
            substrB (strLower t.description) (strLower m))),
       r.matching_merchants, r.reasoning⟩
    | Except.error e =>
      if substrB "coffee" (strLower query) then
        if (txns_to_analyze.filter (fun t =>
              coffee_fallback_keywords.any
                (fun k => substrB k (strLower t.description)))).isEmpty then
          ⟨[], [], "LLM filter failed: " ++ e⟩
        else
          ⟨txns_to_analyze.filter (fun t =>
              coffee_fallback_keywords.any
                (fun k => substrB k (strLower t.description))),
           ((txns_to_analyze.filter (fun t =>
               coffee_fallback_keywords.any
                 (fun k => substrB k (strLower t.description)))).map
             (fun t => t.description)).dedup,
           "Fallback pattern matching for coffee-related merchants"⟩
      else ⟨[], [], "LLM filter failed: " ++ e⟩

theorem append_ne_empty (s t : String) (hs : s.data ≠ []) : s ++ t ≠ "" := by
  intro h
  apply hs
  have h2 := congrArg String.data h
  rw [String.data_append] at h2
  exact (List.append_eq_nil.mp h2).1

/-- C9: when the merchant-matching LLM call fails or its response is
unparseable, the function never raises and either (a) the query mentions
coffee and some record matches the built-in coffee keyword heuristic, in
which case exactly the keyword-matching records are returned with an
explanatory reasoning, or (b) it returns an empty `matching_merchants`
list with a non-empty reasoning string describing the degraded mode. -/
theorem c9_llm_filter_failure_fallback (query : String) (transactions : List Txn)
    (temporal_filtered : Option (List Txn)) (e : String) :
    ((filterTransactionsWithLLM query transactions temporal_filtered
        (Except.error e)).matching_merchants = [] ∧
     (filterTransactionsWithLLM query transactions temporal_filtered
        (Except.error e)).reasoning ≠ "") ∨
    (substrB "coffee" (strLower query) = true ∧
     (filterTransactionsWithLLM query transactions temporal_filtered
        (Except.error e)).matching_transactions ≠ [] ∧
     (∀ t ∈ (filterTransactionsWithLLM query transactions temporal_filtered
        (Except.error e)).matching_transactions,
        coffee_fallback_keywords.any (fun k => substrB k (strLower t.description)) = true) ∧
     (filterTransactionsWithLLM query transactions temporal_filtered
        (Except.error e)).reasoning =
       "Fallback pattern matching for coffee-related merchants") := by
  unfold filterTransactionsWithLLM
  set txns_to_analyze :=
    match temporal_filtered with
    | some l => if l.isEmpty then transactions else l
    | none => transactions with htxns
  by_cases ha : txns_to_analyze.isEmpty
  · rw [if_pos ha]
    exact Or.inl ⟨rfl, by decide⟩
  · rw [if_neg ha]
    by_cases hm : ((txns_to_analyze.map (fun t => t.description)).filter
        (fun d => !d.isEmpty)).dedup.isEmpty
    · rw [if_pos hm]
      exact Or.inl ⟨rfl, by decide⟩
    · rw [if_neg hm]
      dsimp only
      by_cases hc : substrB "coffee" (strLower query)
      · rw [if_pos hc]
        by_cases hf : (txns_to_analyze.filter (fun t =>
            coffee_fallback_keywords.any
              (fun k => substrB k (strLower t.description)))).isEmpty
        · rw [if_pos hf]
          exact Or.inl ⟨rfl, append_ne_empty _ _ (by decide)⟩
        · rw [if_neg hf]
          dsimp only
          refine Or.inr ⟨hc, ?_, ?_, rfl⟩
          · intro h
            rw [h] at hf
            exact hf rfl
          · intro t ht
            exact (List.mem_filter.mp ht).2
      · rw [if_neg hc]
        exact Or.inl ⟨rfl, append_ne_empty _ _ (by decide)⟩

end Secretary
